import Mathlib

/-!
# Verification of the ImageDupeFinder core (`imagefinder.py`)

A shallow embedding of the perceptual-duplicate finder:

* the distance metric (`hamming_distance`, `imagefinder.py` lines 24-26),
* the greedy duplicate clusterer (`find_duplicate_images`, lines 63-82),
* the fingerprint extractor (`get_image_hash`, lines 9-21, delegating to the
  external `imagehash` library, modelled from the spec),
* the extraction loop (lines 53-61),
* duplicate deletion (`delete_duplicates`, lines 90-150),
* command-line argument parsing (`main`, lines 181-194).

Python strings are embedded as `String` (paths) or `List Char` (console
input), Python ints as `Nat`/`Int`, Python lists/dicts in insertion order as
Lean lists, and fallible operations return `Option`/`Except`.
-/

namespace ImageFinder

/-! ## Fingerprints and the distance metric

A fingerprint is the bit vector produced by the average hash, in row-major
order (spec §3: "a fixed-length bit vector").  The distance metric of
`imagefinder.py` lines 24-26 is `hash1 - hash2`, which the external
`imagehash` library implements as the number of differing bit positions,
raising an error when the two bit vectors have different shapes. -/

abbrev Fingerprint := List Bool

/-- Number of positions at which two equal-length bit vectors differ
(the subtraction `hash1 - hash2` of `imagefinder.py` line 26, as computed by
the external `imagehash` library on the flattened bit arrays). -/
def hammingDist : Fingerprint → Fingerprint → Nat
  | a :: as, b :: bs => (if a = b then 0 else 1) + hammingDist as bs
  | _, _ => 0

/-- Modelled from the spec: the error raised by the distance metric on
fingerprints of different bit-lengths ("Fails with
`IncompatibleFingerprintError` if bit-lengths differ", spec §4.2).  The check
itself lives in the external `imagehash` library, not under `src/`. -/
inductive FingerprintError
  | incompatibleFingerprint
deriving DecidableEq

/-- Modelled from the spec: `hamming_distance` of `imagefinder.py` lines
24-26 delegates to the external `imagehash` library's hash subtraction, which
compares the two bit arrays' shapes and fails on a mismatch (spec §4.2);
on equal lengths it returns the count of differing bit positions. -/
def hamming_distance (a b : Fingerprint) : Except FingerprintError Nat :=
  if a.length = b.length then .ok (hammingDist a b)
  else .error .incompatibleFingerprint

theorem hammingDist_comm : ∀ a b : Fingerprint, hammingDist a b = hammingDist b a := by
  intro a
  induction a with
  | nil => intro b; cases b <;> rfl
  | cons x as ih =>
    intro b
    cases b with
    | nil => rfl
    | cons y bs => cases x <;> cases y <;> simp [hammingDist, ih bs]

theorem hammingDist_self : ∀ a : Fingerprint, hammingDist a a = 0 := by
  intro a
  induction a with
  | nil => rfl
  | cons x as ih => simp [hammingDist, ih]

theorem hammingDist_triangle : ∀ a b c : Fingerprint, a.length = b.length →
    b.length = c.length → hammingDist a c ≤ hammingDist a b + hammingDist b c := by
  intro a
  induction a with
  | nil =>
    intro b c hab _
    have : b = [] := List.length_eq_zero.mp hab.symm
    subst this
    cases c <;> simp [hammingDist]
  | cons x as ih =>
    intro b c hab hbc
    cases b with
    | nil => simp at hab
    | cons y bs =>
      cases c with
      | nil => simp at hbc
      | cons z cs =>
        have h := ih bs cs (by simpa using hab) (by simpa using hbc)
        cases x <;> cases y <;> cases z <;> simp [hammingDist] <;> omega

theorem hammingDist_eq_countP : ∀ a b : Fingerprint,
    hammingDist a b = (a.zip b).countP (fun p => p.1 != p.2) := by
  intro a
  induction a with
  | nil => intro b; cases b <;> rfl
  | cons x as ih =>
    intro b
    cases b with
    | nil => rfl
    | cons y bs =>
      cases x <;> cases y <;>
        simp [hammingDist, ih bs, List.countP_cons] <;> omega

/-- **C3.** The distance metric is the count of differing bit positions, is
symmetric, vanishes on equal arguments, and satisfies the triangle
inequality; on equal bit-lengths `hamming_distance` returns it successfully
(non-negativity is inherent in the `Nat` codomain). -/
theorem hamming_distance_metric_properties (a b c : Fingerprint)
    (hab : a.length = b.length) (hbc : b.length = c.length) :
    hamming_distance a b = .ok (hammingDist a b) ∧
    hammingDist a b = (a.zip b).countP (fun p => p.1 != p.2) ∧
    hammingDist a b = hammingDist b a ∧
    hammingDist a a = 0 ∧
    hammingDist a c ≤ hammingDist a b + hammingDist b c :=
  ⟨by simp [hamming_distance, hab], hammingDist_eq_countP a b, hammingDist_comm a b,
    hammingDist_self a, hammingDist_triangle a b c hab hbc⟩

/-- Witness for C3 at concrete fingerprints of equal length 3. -/
theorem hamming_distance_metric_properties_witness :
    [true, false, true].length = [false, false, true].length ∧
    [false, false, true].length = ([true, true, true] : Fingerprint).length ∧
    (hamming_distance [true, false, true] [false, false, true] = .ok 1 ∧
      hammingDist [true, false, true] [false, false, true] = 1 ∧
      hammingDist [true, false, true] [true, true, true] ≤ 1 + 2) := by
  refine ⟨rfl, rfl, ?_, ?_, ?_⟩
  · have h := hamming_distance_metric_properties [true, false, true] [false, false, true]
      [true, true, true] rfl rfl
    exact h.1
  · decide
  · decide

/-- **C8.** On fingerprints of different bit-lengths the distance metric
fails with the incompatible-fingerprint error instead of returning a
distance. -/
theorem hamming_distance_length_mismatch_error (a b : Fingerprint)
    (h : a.length ≠ b.length) :
    hamming_distance a b = .error .incompatibleFingerprint := by
  simp [hamming_distance, h]

/-- Witness for C8: a 2-bit and a 1-bit fingerprint. -/
theorem hamming_distance_length_mismatch_error_witness :
    ([true, false] : Fingerprint).length ≠ ([true] : Fingerprint).length ∧
    hamming_distance [true, false] [true] = .error .incompatibleFingerprint :=
  ⟨by decide, hamming_distance_length_mismatch_error [true, false] [true] (by decide)⟩

/-! ## The greedy duplicate clusterer

`find_duplicate_images` (`imagefinder.py` lines 63-82) iterates over the
`(path, hash)` pairs in enumeration order; an unclaimed record scans all
subsequent records, claims every still-unclaimed one within the threshold as
a duplicate, and becomes the original of a cluster exactly when it claimed at
least one duplicate.  The `defaultdict` is modelled as the insertion-ordered
association list of clusters and the `processed` set as a list of paths.

The distance computation (line 76 calls `hamming_distance`) is factored out
as a parameter `d` of the loop so that the loop can also be run against a
stipulated distance table; `clusterRecords` instantiates `d` with the real
metric on fingerprints. -/

/-- The inner loop of `imagefinder.py` lines 72-80: for the current original
with hash `h1`, scan the subsequent records, skip claimed ones, and claim
every record within the threshold.  Returns the accumulated
`(duplicate path, distance)` list of the original together with the updated
`processed` set. -/
def scanUnclaimed {α : Type} (d : α → α → Nat) (thr : Nat) (h1 : α) :
    List (String × α) → List String → List (String × Nat) × List String
  | [], processed => ([], processed)
  | (f2, h2) :: rest, processed =>
    if f2 ∈ processed then scanUnclaimed d thr h1 rest processed
    else if d h1 h2 ≤ thr then
      ((f2, d h1 h2) :: (scanUnclaimed d thr h1 rest (f2 :: processed)).1,
        (scanUnclaimed d thr h1 rest (f2 :: processed)).2)
    else scanUnclaimed d thr h1 rest processed

/-- The outer loop of `imagefinder.py` lines 68-82: records already claimed
are skipped; an unclaimed record runs the inner scan and contributes a
cluster exactly when the scan claimed at least one duplicate (the
`defaultdict` entry is only created by the `append` on line 79). -/
def clusterLoop {α : Type} (d : α → α → Nat) (thr : Nat) :
    List (String × α) → List String → List (String × List (String × Nat))
  | [], _ => []
  | (f1, h1) :: rest, processed =>
    if f1 ∈ processed then clusterLoop d thr rest processed
    else if (scanUnclaimed d thr h1 rest processed).1 = [] then
      clusterLoop d thr rest (scanUnclaimed d thr h1 rest processed).2
    else
      (f1, (scanUnclaimed d thr h1 rest processed).1) ::
        clusterLoop d thr rest (scanUnclaimed d thr h1 rest processed).2

/-- The clustering stage of `find_duplicate_images` (`imagefinder.py` lines
63-82) on a `(path, fingerprint)` record list, with the real distance
metric. -/
def clusterRecords (thr : Nat) (l : List (String × Fingerprint)) :
    List (String × List (String × Nat)) :=
  clusterLoop (fun h1 h2 => hammingDist h1 h2) thr l []

/-- All paths mentioned by a cluster list: each cluster's original followed
by its duplicates, in order. -/
def allClusterPaths (cs : List (String × List (String × Nat))) : List String :=
  (cs.map (fun c => c.1 :: c.2.map Prod.fst)).flatten

/-! ### C1: the three-record scenario

The distances stipulated by the scenario (`d(A,B)=3`, `d(A,C)=8`,
`d(B,C)=6`) are supplied as a symmetric distance table over record
identifiers, because no triple of bit vectors realises them exactly (the sum
`3+8+6` is odd, while Hamming distances of any three bit vectors have even
perimeter).  The greedy loop never consults `d(B,C)` on this input — the
second table below moves `d(B,C)` to `0` and the output is unchanged. -/

/-- The scenario's stipulated distance table on record identifiers
`A = 0`, `B = 1`, `C = 2`. -/
def triDist : Nat → Nat → Nat
  | 0, 1 => 3
  | 1, 0 => 3
  | 0, 2 => 8
  | 2, 0 => 8
  | 1, 2 => 6
  | 2, 1 => 6
  | _, _ => 0

/-- The same table with `d(B,C)` changed to `0` (within any threshold). -/
def triDistBC0 : Nat → Nat → Nat
  | 0, 1 => 3
  | 1, 0 => 3
  | 0, 2 => 8
  | 2, 0 => 8
  | _, _ => 0

/-- The scenario's records, enumerated in order `A`, `B`, `C`. -/
def triRecords : List (String × Nat) := [("A", 0), ("B", 1), ("C", 2)]

/-- **C1.** With distances `d(A,B)=3`, `d(A,C)=8`, `d(B,C)=6` and threshold
`5`, the greedy clusterer emits exactly the single cluster with original `A`
and duplicates `[(B,3)]`, and `C` belongs to no cluster; moreover changing
`d(B,C)` to `0` leaves the output unchanged, so `C` is compared only against
`A`, never against `B`. -/
theorem greedy_cluster_three_record_scenario :
    clusterLoop triDist 5 triRecords [] = [("A", [("B", 3)])] ∧
    "C" ∉ allClusterPaths (clusterLoop triDist 5 triRecords []) ∧
    clusterLoop triDistBC0 5 triRecords [] = [("A", [("B", 3)])] := by
  decide

/-! ### C2: each record belongs to at most one cluster -/

theorem allClusterPaths_cons (c : String × List (String × Nat))
    (cs : List (String × List (String × Nat))) :
    allClusterPaths (c :: cs) = (c.1 :: c.2.map Prod.fst) ++ allClusterPaths cs := by
  simp [allClusterPaths]

/-- The inner scan returns the `processed` set extended by exactly the paths
it claimed (`processed.add(file2)` on `imagefinder.py` line 80). -/
theorem scanUnclaimed_snd {α : Type} (d : α → α → Nat) (thr : Nat) (h1 : α) :
    ∀ (rest : List (String × α)) (processed : List String),
      (scanUnclaimed d thr h1 rest processed).2 =
        ((scanUnclaimed d thr h1 rest processed).1.map Prod.fst).reverse ++ processed := by
  intro rest
  induction rest with
  | nil => intro processed; simp [scanUnclaimed]
  | cons hd tl ih =>
    intro processed
    obtain ⟨f2, h2⟩ := hd
    by_cases hmem : f2 ∈ processed
    · simp [scanUnclaimed, hmem, ih]
    · by_cases hd2 : d h1 h2 ≤ thr
      · simp [scanUnclaimed, hmem, hd2, ih (f2 :: processed)]
      · simp [scanUnclaimed, hmem, hd2, ih]

/-- The claimed duplicates form a subsequence of the scanned records. -/
theorem scanUnclaimed_fst_sublist {α : Type} (d : α → α → Nat) (thr : Nat) (h1 : α) :
    ∀ (rest : List (String × α)) (processed : List String),
      List.Sublist ((scanUnclaimed d thr h1 rest processed).1.map Prod.fst)
        (rest.map Prod.fst) := by
  intro rest
  induction rest with
  | nil => intro processed; simp [scanUnclaimed]
  | cons hd tl ih =>
    intro processed
    obtain ⟨f2, h2⟩ := hd
    by_cases hmem : f2 ∈ processed
    · simp only [scanUnclaimed, if_pos hmem, List.map_cons]
      exact (ih processed).cons f2
    · by_cases hd2 : d h1 h2 ≤ thr
      · simp only [scanUnclaimed, if_neg hmem, if_pos hd2, List.map_cons]
        exact (ih (f2 :: processed)).cons₂ f2
      · simp only [scanUnclaimed, if_neg hmem, if_pos hd2, if_neg hd2, List.map_cons]
        exact (ih processed).cons f2

/-- Paths claimed by the inner scan were unclaimed beforehand (line 73's
`if file2 in processed: continue`). -/
theorem scanUnclaimed_fst_not_mem {α : Type} (d : α → α → Nat) (thr : Nat) (h1 : α) :
    ∀ (rest : List (String × α)) (processed : List String) (p : String),
      p ∈ (scanUnclaimed d thr h1 rest processed).1.map Prod.fst → p ∉ processed := by
  intro rest
  induction rest with
  | nil => intro processed p hp; simp [scanUnclaimed] at hp
  | cons hd tl ih =>
    intro processed p hp
    obtain ⟨f2, h2⟩ := hd
    by_cases hmem : f2 ∈ processed
    · rw [scanUnclaimed, if_pos hmem] at hp
      exact ih processed p hp
    · by_cases hd2 : d h1 h2 ≤ thr
      · rw [scanUnclaimed, if_neg hmem, if_pos hd2] at hp
        simp only [List.map_cons, List.mem_cons] at hp
        rcases hp with rfl | hp
        · exact hmem
        · intro hcon
          exact ih (f2 :: processed) p hp (List.mem_cons_of_mem f2 hcon)
      · rw [scanUnclaimed, if_neg hmem, if_neg hd2] at hp
        exact ih processed p hp

/-- Main invariant of the greedy loop: when the input paths are distinct,
the paths mentioned in the output (originals and duplicates) are distinct,
drawn from the input, and disjoint from the initial claimed set. -/
theorem clusterLoop_paths_nodup {α : Type} (d : α → α → Nat) (thr : Nat) :
    ∀ (l : List (String × α)) (processed : List String), (l.map Prod.fst).Nodup →
      (allClusterPaths (clusterLoop d thr l processed)).Nodup ∧
      ∀ p ∈ allClusterPaths (clusterLoop d thr l processed),
        p ∈ l.map Prod.fst ∧ p ∉ processed := by
  intro l
  induction l with
  | nil => intro processed _; simp [clusterLoop, allClusterPaths]
  | cons hd rest ih =>
    intro processed hnd
    obtain ⟨f1, h1⟩ := hd
    have hnd2 : f1 ∉ rest.map Prod.fst ∧ (rest.map Prod.fst).Nodup := by
      simpa [List.nodup_cons] using hnd
    by_cases hmem : f1 ∈ processed
    · rw [clusterLoop, if_pos hmem]
      obtain ⟨hnodup, hmem2⟩ := ih processed hnd2.2
      exact ⟨hnodup, fun p hp =>
        ⟨by simpa using Or.inr ((hmem2 p hp).1), (hmem2 p hp).2⟩⟩
    · have hsnd := scanUnclaimed_snd d thr h1 rest processed
      have hsub := scanUnclaimed_fst_sublist d thr h1 rest processed
      have hnm := scanUnclaimed_fst_not_mem d thr h1 rest processed
      rw [clusterLoop, if_neg hmem]
      by_cases hempty : (scanUnclaimed d thr h1 rest processed).1 = []
      · rw [if_pos hempty]
        have hsnd2 : (scanUnclaimed d thr h1 rest processed).2 = processed := by
          rw [hsnd, hempty]; simp
        rw [hsnd2]
        obtain ⟨hnodup, hmem2⟩ := ih processed hnd2.2
        exact ⟨hnodup, fun p hp =>
          ⟨by simpa using Or.inr ((hmem2 p hp).1), (hmem2 p hp).2⟩⟩
      · rw [if_neg hempty, allClusterPaths_cons]
        obtain ⟨hnodup, hmem2⟩ :=
          ih (scanUnclaimed d thr h1 rest processed).2 hnd2.2
        have hdnd : ((scanUnclaimed d thr h1 rest processed).1.map Prod.fst).Nodup :=
          hsub.nodup hnd2.2
        have hf1d : f1 ∉ (scanUnclaimed d thr h1 rest processed).1.map Prod.fst :=
          fun hc => hnd2.1 (hsub.subset hc)
        have htail : ∀ p ∈ allClusterPaths
            (clusterLoop d thr rest (scanUnclaimed d thr h1 rest processed).2),
            p ∈ rest.map Prod.fst ∧
            p ∉ (scanUnclaimed d thr h1 rest processed).1.map Prod.fst ∧
            p ∉ processed := by
          intro p hp
          have h2 := hmem2 p hp
          have hps : p ∉ (scanUnclaimed d thr h1 rest processed).2 := h2.2
          rw [hsnd] at hps
          simp only [List.mem_append, List.mem_reverse] at hps
          exact ⟨h2.1, fun hc => hps (Or.inl hc), fun hc => hps (Or.inr hc)⟩
        constructor
        · refine List.Nodup.append ?_ hnodup ?_
          · exact List.nodup_cons.mpr ⟨hf1d, hdnd⟩
          · intro x hx hxt
            rcases List.mem_cons.mp hx with rfl | hx2
            · exact hnd2.1 (htail x hxt).1
            · exact (htail x hxt).2.1 hx2
        · intro p hp
          rcases List.mem_append.mp hp with hp1 | hp2
          · rcases List.mem_cons.mp hp1 with rfl | hp3
            · exact ⟨by simp, hmem⟩
            · exact ⟨by simpa using Or.inr (hsub.subset hp3), hnm p hp3⟩
          · exact ⟨by simpa using Or.inr ((htail p hp2).1), (htail p hp2).2.2⟩

/-- **C2.** When the input records carry pairwise distinct paths (as they do
in `find_duplicate_images`, whose records are the items of a `dict` keyed by
path), every path occurs at most once across the whole cluster output: never
in two clusters, never as both an original and a duplicate, never twice. -/
theorem cluster_output_paths_nodup (l : List (String × Fingerprint)) (thr : Nat)
    (hnd : (l.map Prod.fst).Nodup) :
    (allClusterPaths (clusterRecords thr l)).Nodup :=
  (clusterLoop_paths_nodup (fun h1 h2 => hammingDist h1 h2) thr l [] hnd).1

/-- Witness for C2: three records, two of which get clustered. -/
theorem cluster_output_paths_nodup_witness :
    (([("a", [true]), ("b", [true]), ("c", [false])].map Prod.fst).Nodup ∧
      allClusterPaths (clusterRecords 0 [("a", [true]), ("b", [true]), ("c", [false])]) =
        ["a", "b"]) ∧
    (allClusterPaths (clusterRecords 0
      [("a", [true]), ("b", [true]), ("c", [false])])).Nodup :=
  ⟨⟨by decide, by decide⟩,
    cluster_output_paths_nodup [("a", [true]), ("b", [true]), ("c", [false])] 0 (by decide)⟩

/-! ### C4: cluster count versus threshold

The cluster count is *not* non-increasing in the threshold.  In the record
list below, at threshold `1` the first record attracts nobody and the second
claims the last two (one cluster); at threshold `2` the first record claims
the second, which therefore can no longer absorb the last two, and those two
pair up on their own (two clusters). -/

/-- Four records refuting monotonicity of the cluster count in the
threshold: pairwise Hamming distances are
`d(a,x)=2`, `d(a,y1)=d(a,y2)=3`, `d(x,y1)=d(x,y2)=1`, `d(y1,y2)=2`. -/
def monoCexRecords : List (String × Fingerprint) :=
  [("a", [true, true, false, false, false]),
   ("x", [false, false, false, false, false]),
   ("y1", [false, false, true, false, false]),
   ("y2", [false, false, false, true, false])]

/-- **C4, counterexample.** Raising the threshold from `1` to `2` raises the
cluster count from `1` to `2` on `monoCexRecords`, so the cluster count is
not non-increasing in the threshold. -/
theorem cluster_count_not_monotone_cex :
    (1 : Nat) ≤ 2 ∧
    (clusterRecords 1 monoCexRecords).length = 1 ∧
    (clusterRecords 2 monoCexRecords).length = 2 ∧
    ¬ (clusterRecords 2 monoCexRecords).length ≤ (clusterRecords 1 monoCexRecords).length := by
  decide

/-- When every scanned record is unclaimed and within the threshold, the
inner scan claims all of them, in order, with their distances. -/
theorem scanUnclaimed_all_within {α : Type} (d : α → α → Nat) (thr : Nat) (h1 : α) :
    ∀ (rest : List (String × α)) (processed : List String),
      (∀ x ∈ rest, d h1 x.2 ≤ thr) → (rest.map Prod.fst).Nodup →
      (∀ p ∈ rest.map Prod.fst, p ∉ processed) →
      scanUnclaimed d thr h1 rest processed =
        (rest.map (fun x => (x.1, d h1 x.2)), (rest.map Prod.fst).reverse ++ processed) := by
  intro rest
  induction rest with
  | nil => intro processed _ _ _; simp [scanUnclaimed]
  | cons hd tl ih =>
    intro processed hthr hnd hfree
    obtain ⟨f2, h2⟩ := hd
    have hmem : f2 ∉ processed := hfree f2 (by simp)
    have hd2 : d h1 h2 ≤ thr := hthr (f2, h2) (by simp)
    have hnd2 : f2 ∉ tl.map Prod.fst ∧ (tl.map Prod.fst).Nodup := by
      simpa [List.nodup_cons] using hnd
    rw [scanUnclaimed, if_neg hmem, if_pos hd2,
      ih (f2 :: processed) (fun x hx => hthr x (List.mem_cons_of_mem _ hx)) hnd2.2
        (fun p hp => by
          simp only [List.mem_cons]
          rintro (rfl | hcon)
          · exact hnd2.1 hp
          · exact hfree p (List.mem_cons_of_mem _ hp) hcon)]
    simp

/-- Records whose paths are all already claimed produce no clusters. -/
theorem clusterLoop_all_claimed {α : Type} (d : α → α → Nat) (thr : Nat) :
    ∀ (l : List (String × α)) (processed : List String),
      (∀ p ∈ l.map Prod.fst, p ∈ processed) → clusterLoop d thr l processed = [] := by
  intro l
  induction l with
  | nil => intro processed _; rfl
  | cons hd tl ih =>
    intro processed hall
    obtain ⟨f1, h1⟩ := hd
    rw [clusterLoop, if_pos (hall f1 (by simp))]
    exact ih processed fun p hp => hall p (List.mem_cons_of_mem _ hp)

/-- **C4, amended.** The cluster count is not monotone in the threshold (see
`cluster_count_not_monotone_cex`); what does hold is the spec's collapsing
statement: once the threshold dominates every pairwise distance, a list of
at least two records with distinct paths collapses into exactly one cluster,
whose original is the first record and whose duplicates are all remaining
records in enumeration order with their distances. -/
theorem threshold_above_all_distances_single_cluster
    (f1 : String) (h1 : Fingerprint) (rest : List (String × Fingerprint)) (thr : Nat)
    (hne : rest ≠ [])
    (hnd : (((f1, h1) :: rest).map Prod.fst).Nodup)
    (hthr : ∀ a ∈ (f1, h1) :: rest, ∀ b ∈ (f1, h1) :: rest,
      hammingDist a.2 b.2 ≤ thr) :
    clusterRecords thr ((f1, h1) :: rest) =
      [(f1, rest.map (fun x => (x.1, hammingDist h1 x.2)))] ∧
    (clusterRecords thr ((f1, h1) :: rest)).length = 1 := by
  have hnd2 : f1 ∉ rest.map Prod.fst ∧ (rest.map Prod.fst).Nodup := by
    simpa [List.nodup_cons] using hnd
  have hscan := scanUnclaimed_all_within (fun a b => hammingDist a b) thr h1 rest []
    (fun x hx => hthr (f1, h1) (by simp) x (List.mem_cons_of_mem _ hx))
    hnd2.2 (fun p _ => List.not_mem_nil p)
  have hmain : clusterRecords thr ((f1, h1) :: rest) =
      [(f1, rest.map (fun x => (x.1, hammingDist h1 x.2)))] := by
    rw [clusterRecords, clusterLoop, if_neg (List.not_mem_nil f1), hscan]
    have hne2 : rest.map (fun x : String × Fingerprint => (x.1, hammingDist h1 x.2)) ≠ [] := by
      simpa [List.map_eq_nil_iff] using hne
    rw [if_neg hne2]
    rw [clusterLoop_all_claimed (fun a b => hammingDist a b) thr rest
      ((rest.map Prod.fst).reverse ++ []) (fun p hp => by simpa using hp)]
  exact ⟨hmain, by rw [hmain]; rfl⟩

/-- Witness for the amended C4: three records with all pairwise distances
`≤ 2` collapse into the single cluster originated by the first record. -/
theorem threshold_above_all_distances_single_cluster_witness :
    ([("b", [false, false]), ("c", [true, true])] ≠ ([] : List (String × Fingerprint))) ∧
    (([("a", [true, false]), ("b", [false, false]), ("c", [true, true])].map
      Prod.fst).Nodup) ∧
    clusterRecords 2 [("a", [true, false]), ("b", [false, false]), ("c", [true, true])] =
      [("a", [("b", 1), ("c", 1)])] :=
  ⟨by decide, by decide,
    (threshold_above_all_distances_single_cluster "a" [true, false]
      [("b", [false, false]), ("c", [true, true])] 2 (by decide) (by decide)
      (by decide)).1.trans (by decide)⟩

/-! ## The fingerprint extractor

`get_image_hash` (`imagefinder.py` lines 9-21) opens the file, converts it
to RGB, and delegates to the external `imagehash` library's average hash;
on any failure it reports the error and returns `None`.  The decoding and
hashing internals are not under `src/`, so they are modelled from the spec
(§4.1): convert to luminance, resize to an `N×N` grid by area averaging,
take the grid mean, and emit one bit per cell (`1` iff the cell is at least
the mean) in row-major order.  Pixel arithmetic is carried out in `ℚ`.  A
decoded image is its pixel grid, as rows of RGB triples; a file that fails
to decode is `none`. -/

abbrev RGB := Nat × Nat × Nat

abbrev DecodedImage := List (List RGB)

/-- Modelled from the spec: the ITU-R 601-2 luminance conversion performed
by the external image-codec library ("convert to a single-channel
(luminance) representation", spec §4.1). -/
def rgbToLuminance : RGB → ℚ
  | (r, g, b) => (299 * r + 587 * g + 114 * b) / 1000

/-- The single-channel pixel grid of a decoded image. -/
def lumGrid (img : DecodedImage) : List (List ℚ) :=
  img.map (fun row => row.map rgbToLuminance)

/-- Modelled from the spec: the value of grid cell `(i, j)` under the
area-averaged resample — the mean of the `bh × bw` pixel block at block
coordinates `(i, j)` ("using an averaging/area-based resample", spec §4.1);
the resize itself happens inside the external `imagehash` library. -/
def cellValue (g : List (List ℚ)) (bh bw i j : Nat) : ℚ :=
  (((List.range bh).map (fun u =>
    ((List.range bw).map (fun v =>
      (g.getD (i * bh + u) []).getD (j * bw + v) 0)).sum)).sum) / ((bh * bw : Nat) : ℚ)

/-- Modelled from the spec: the `n × n` grid of area-averaged cells, in
row-major order. -/
def areaResample (g : List (List ℚ)) (bh bw n : Nat) : List ℚ :=
  ((List.range n).map (fun i =>
    (List.range n).map (fun j => cellValue g bh bw i j))).flatten

/-- The mean cell value of the reduced grid (spec §4.1: "compute the mean
luminance of the grid"). -/
def gridMean (cells : List ℚ) : ℚ := cells.sum / (cells.length : ℚ)

/-- One bit per cell: `1` iff the cell's value is at least the grid mean
(spec §4.1: "emit one bit per cell = 1 if the cell's value is ≥ the mean,
else 0, in fixed row-major order"). -/
def averageHashBits (cells : List ℚ) : Fingerprint :=
  cells.map (fun c => decide (gridMean cells ≤ c))

/-- Modelled from the spec: `imagehash.average_hash` as called on
`imagefinder.py` line 18 — luminance conversion, area-averaged reduction to
an `n × n` grid, thresholding at the grid mean.  The block dimensions divide
the image evenly when its sides are multiples of `n`. -/
def average_hash (img : DecodedImage) (n : Nat) : Fingerprint :=
  averageHashBits
    (areaResample (lumGrid img) (img.length / n) ((img.headD []).length / n) n)

/-- `get_image_hash` (`imagefinder.py` lines 9-21): hash the decoded image,
or report and return `None` when decoding failed.  The `hash_size` default
is `8`. -/
def get_image_hash (decoded : Option DecodedImage) (hashSize : Nat) :
    Option Fingerprint :=
  decoded.map (fun img => average_hash img hashSize)

theorem areaResample_length (g : List (List ℚ)) (bh bw n : Nat) :
    (areaResample g bh bw n).length = n * n := by
  simp [areaResample, List.length_flatten, List.map_map, Function.comp_def,
    List.map_const', List.sum_replicate, smul_eq_mul]

/-- **C5.** The fingerprint of a decoded image is the row-major flattening
of the `n × n` grid of threshold bits: one bit per area-averaged cell, set
exactly when the cell's value is at least the mean cell value; the
fingerprint has `n * n` bits (`n = 8` by default, giving 64 bits). -/
theorem average_hash_rowmajor_bits (img : DecodedImage) (n : Nat) :
    average_hash img n =
      ((List.range n).map (fun i => (List.range n).map (fun j =>
        decide (gridMean (areaResample (lumGrid img) (img.length / n)
            ((img.headD []).length / n) n) ≤
          cellValue (lumGrid img) (img.length / n) ((img.headD []).length / n) i j)))).flatten ∧
    (average_hash img n).length = n * n := by
  constructor
  · rw [average_hash, averageHashBits]
    generalize gridMean (areaResample (lumGrid img) (img.length / n)
      ((img.headD []).length / n) n) = m
    rw [areaResample, List.map_flatten, List.map_map]
    simp [Function.comp_def]
  · rw [average_hash, averageHashBits, List.length_map, areaResample_length]

/-! ## The extraction loop

`find_duplicate_images` (`imagefinder.py` lines 53-61) hashes each
enumerated file in order; files whose hash is `None` contribute no record
(the error was already reported by `get_image_hash`), and the records feed
the clustering stage.  The `file_hashes` `dict` (keyed by the distinct
walked paths, in insertion order) is the record list. -/

/-- The hashing loop of `imagefinder.py` lines 53-59: one record per file
whose decode succeeded, in enumeration order. -/
def extractRecords (files : List (String × Option DecodedImage)) :
    List (String × Fingerprint) :=
  files.filterMap (fun x => (get_image_hash x.2 8).map (fun h => (x.1, h)))

/-- Number of decode failures reported during extraction (`imagefinder.py`
line 20 prints the error, line 21 returns `None`). -/
def decodeFailures (files : List (String × Option DecodedImage)) : Nat :=
  files.countP (fun x => (get_image_hash x.2 8).isNone)

/-- `find_duplicate_images` (`imagefinder.py` lines 29-82) after file
enumeration: hash the decodable files, then cluster the resulting
records. -/
def find_duplicate_images (thr : Nat) (files : List (String × Option DecodedImage)) :
    List (String × List (String × Nat)) :=
  clusterRecords thr (extractRecords files)

theorem extract_length_add_failures :
    ∀ files : List (String × Option DecodedImage),
      (extractRecords files).length + decodeFailures files = files.length := by
  intro files
  induction files with
  | nil => rfl
  | cons hd tl ih =>
    obtain ⟨p, d⟩ := hd
    cases d with
    | none =>
      have e1 : extractRecords ((p, none) :: tl) = extractRecords tl := by
        simp [extractRecords, get_image_hash]
      have e2 : decodeFailures ((p, none) :: tl) = decodeFailures tl + 1 := by
        simp [decodeFailures, get_image_hash, List.countP_cons]
      rw [e1, e2, List.length_cons]
      omega
    | some img =>
      have e1 : extractRecords ((p, some img) :: tl) =
          (p, average_hash img 8) :: extractRecords tl := by
        simp [extractRecords, get_image_hash]
      have e2 : decodeFailures ((p, some img) :: tl) = decodeFailures tl := by
        simp [decodeFailures, get_image_hash, List.countP_cons]
      rw [e1, e2, List.length_cons, List.length_cons]
      omega

/-- **C6.** A decode failure is non-fatal to the batch: a batch of 5 files
with exactly 1 undecodable file yields exactly 4 records and 1 reported
failure, and the clustering stage runs on exactly those 4 records. -/
theorem decode_failure_nonfatal (files : List (String × Option DecodedImage)) (thr : Nat)
    (h5 : files.length = 5) (h1 : files.countP (fun x => x.2.isNone) = 1) :
    (extractRecords files).length = 4 ∧ decodeFailures files = 1 ∧
    find_duplicate_images thr files = clusterRecords thr (extractRecords files) := by
  have hco : decodeFailures files = files.countP (fun x => x.2.isNone) := by
    simp [decodeFailures, get_image_hash]
  have hlen := extract_length_add_failures files
  refine ⟨by omega, by omega, rfl⟩

/-- A concrete batch of five files, the third of which fails to decode. -/
def c6Batch : List (String × Option DecodedImage) :=
  [("a", some [[(0, 0, 0)]]), ("b", some [[(1, 2, 3)]]), ("c", none),
   ("d", some [[(4, 5, 6)]]), ("e", some [[(7, 8, 9)]])]

/-- Witness for C6 on `c6Batch`. -/
theorem decode_failure_nonfatal_witness :
    c6Batch.length = 5 ∧ c6Batch.countP (fun x => x.2.isNone) = 1 ∧
    ((extractRecords c6Batch).length = 4 ∧ decodeFailures c6Batch = 1 ∧
      find_duplicate_images 5 c6Batch = clusterRecords 5 (extractRecords c6Batch)) :=
  ⟨by decide, by decide, decode_failure_nonfatal c6Batch 5 (by decide) (by decide)⟩

/-! ## Duplicate deletion

`delete_duplicates` (`imagefinder.py` lines 90-150) flattens the duplicate
lists into a deletion plan, optionally asks for confirmation, then removes
the planned files one by one, counting the files actually removed and
summing their sizes; a per-file exception is caught, reported, and the loop
continues (lines 138-146).  The filesystem is modelled as an association
list from path to byte size; a removal fails exactly when the path has no
entry (the "already removed by another process" case; a permission error
behaves the same way: the `except` branch skips the file). -/

/-- `os.path.getsize` on the modelled filesystem (`get_file_size`,
`imagefinder.py` lines 85-87), returning `none` when the file is gone. -/
def lookupSize : List (String × Nat) → String → Option Nat
  | [], _ => none
  | (q, s) :: rest, p => if q = p then some s else lookupSize rest p

/-- `os.remove` on the modelled filesystem: the file's entry disappears. -/
def removeFile (fs : List (String × Nat)) (p : String) : List (String × Nat) :=
  fs.filter (fun e => e.1 != p)

/-- The deletion loop of `imagefinder.py` lines 138-146: returns the
remaining filesystem, `deleted_count`, and `total_size_freed`.  A file whose
size cannot be read is skipped and contributes to neither counter. -/
def deleteLoop : List String → List (String × Nat) → List (String × Nat) × Nat × Nat
  | [], fs => (fs, 0, 0)
  | p :: ps, fs =>
    match lookupSize fs p with
    | none => deleteLoop ps fs
    | some sz =>
      ((deleteLoop ps (removeFile fs p)).1,
        (deleteLoop ps (removeFile fs p)).2.1 + 1,
        (deleteLoop ps (removeFile fs p)).2.2 + sz)

/-- Total byte size of the files on the modelled filesystem. -/
def totalSize (fs : List (String × Nat)) : Nat := (fs.map Prod.snd).sum

/-- The deletion plan (`files_to_delete`, `imagefinder.py` lines 110-121):
every duplicate path, in cluster order then duplicate order. -/
def filesToDelete (dups : List (String × List (String × Nat))) : List String :=
  (dups.map (fun g => g.2.map Prod.fst)).flatten

/-- `total_duplicates` (`imagefinder.py` line 98). -/
def totalDuplicates (dups : List (String × List (String × Nat))) : Nat :=
  (dups.map (fun g => g.2.length)).sum

theorem removeFile_eq_self (fs : List (String × Nat)) (p : String)
    (h : p ∉ fs.map Prod.fst) : removeFile fs p = fs := by
  rw [removeFile, List.filter_eq_self]
  intro e he
  simp only [bne_iff_ne, ne_eq]
  intro hc
  exact h (by rw [← hc]; exact List.mem_map_of_mem Prod.fst he)

/-- Accounting for one successful removal on a duplicate-free filesystem:
the removed entry's size and slot leave the filesystem, nothing else
changes. -/
theorem lookup_remove_accounting :
    ∀ (fs : List (String × Nat)) (p : String) (sz : Nat),
      (fs.map Prod.fst).Nodup → lookupSize fs p = some sz →
      totalSize fs = sz + totalSize (removeFile fs p) ∧
      fs.length = (removeFile fs p).length + 1 ∧
      ((removeFile fs p).map Prod.fst).Nodup := by
  intro fs
  induction fs with
  | nil => intro p sz _ hl; simp [lookupSize] at hl
  | cons hd tl ih =>
    intro p sz hnd hl
    obtain ⟨q, s⟩ := hd
    have hnd2 : q ∉ tl.map Prod.fst ∧ (tl.map Prod.fst).Nodup := by
      simpa [List.nodup_cons] using hnd
    by_cases hq : q = p
    · subst hq
      rw [lookupSize, if_pos rfl] at hl
      have hsz : s = sz := by simpa using hl
      subst hsz
      have hrm : removeFile ((q, s) :: tl) q = tl := by
        have : ((q, s).1 != q) = false := by simp
        rw [removeFile, List.filter_cons, this]
        exact removeFile_eq_self tl q hnd2.1
      rw [hrm]
      exact ⟨by simp [totalSize], by simp, hnd2.2⟩
    · rw [lookupSize, if_neg hq] at hl
      have hrm : removeFile ((q, s) :: tl) p = (q, s) :: removeFile tl p := by
        have hb : ((q, s).1 != p) = true := by simpa [bne_iff_ne] using hq
        simp [removeFile, List.filter_cons, hb]
      obtain ⟨ihs, ihl, ihn⟩ := ih p sz hnd2.2 hl
      rw [hrm]
      refine ⟨?_, ?_, ?_⟩
      · simp only [totalSize, List.map_cons, List.sum_cons] at ihs ⊢
        omega
      · simp only [List.length_cons] at ihl ⊢
        omega
      · refine List.nodup_cons.mpr ⟨fun hc => hnd2.1 ?_, ihn⟩
        exact ((List.filter_sublist tl).map Prod.fst).subset hc

/-- Accounting over the whole deletion loop: the bytes reported freed plus
the bytes still on disk equal the initial bytes, the files reported deleted
plus the files still on disk equal the initial file count, and the loop only
ever removes files. -/
theorem deleteLoop_accounting :
    ∀ (ps : List String) (fs : List (String × Nat)), (fs.map Prod.fst).Nodup →
      (deleteLoop ps fs).2.2 + totalSize (deleteLoop ps fs).1 = totalSize fs ∧
      (deleteLoop ps fs).2.1 + (deleteLoop ps fs).1.length = fs.length ∧
      List.Sublist (deleteLoop ps fs).1 fs := by
  intro ps
  induction ps with
  | nil =>
    intro fs hnd
    exact ⟨by simp [deleteLoop], by simp [deleteLoop], by simp [deleteLoop]⟩
  | cons p ps ih =>
    intro fs hnd
    cases hl : lookupSize fs p with
    | none =>
      simp only [deleteLoop, hl]
      exact ih fs hnd
    | some sz =>
      obtain ⟨hs, hlen, hnd2⟩ := lookup_remove_accounting fs p sz hnd hl
      obtain ⟨ihs, ihl, ihsub⟩ := ih (removeFile fs p) hnd2
      simp only [deleteLoop, hl]
      refine ⟨by omega, by omega, ihsub.trans (List.filter_sublist fs)⟩

/-- **C7.** A per-file deletion failure is skipped and the loop continues
with the remaining files, and the reported total of bytes freed accounts for
exactly the files actually removed: freed bytes plus remaining bytes equal
the initial bytes, removed count plus remaining count equal the initial
count, and the loop only removes files. -/
theorem delete_duplicates_accounting (p : String) (ps : List String)
    (fs : List (String × Nat)) (hnd : (fs.map Prod.fst).Nodup)
    (hfail : lookupSize fs p = none) :
    deleteLoop (p :: ps) fs = deleteLoop ps fs ∧
    (deleteLoop ps fs).2.2 + totalSize (deleteLoop ps fs).1 = totalSize fs ∧
    (deleteLoop ps fs).2.1 + (deleteLoop ps fs).1.length = fs.length ∧
    List.Sublist (deleteLoop ps fs).1 fs := by
  obtain ⟨h1, h2, h3⟩ := deleteLoop_accounting ps fs hnd
  exact ⟨by simp only [deleteLoop, hfail], h1, h2, h3⟩

/-- Witness for C7: the plan names a missing file `"zz"`, and the loop still
deletes the two later files, freeing `20 + 30 = 50` bytes of the initial
`60`. -/
theorem delete_duplicates_accounting_witness :
    (([("a", 10), ("b", 20), ("c", 30)] : List (String × Nat)).map Prod.fst).Nodup ∧
    lookupSize [("a", 10), ("b", 20), ("c", 30)] "zz" = none ∧
    deleteLoop ["zz", "b", "c"] [("a", 10), ("b", 20), ("c", 30)] =
      deleteLoop ["b", "c"] [("a", 10), ("b", 20), ("c", 30)] ∧
    deleteLoop ["b", "c"] [("a", 10), ("b", 20), ("c", 30)] = ([("a", 10)], 2, 50) :=
  ⟨by decide, by decide,
    (delete_duplicates_accounting "zz" ["b", "c"] [("a", 10), ("b", 20), ("c", 30)]
      (by decide) (by decide)).1,
    by decide⟩

/-! ## The confirmation prompt

`delete_duplicates` (`imagefinder.py` lines 125-133) in interactive mode
reads one console line, strips surrounding whitespace, lowercases it, and
proceeds to the deletion loop only for `"yes"` or `"y"`; any other response
returns with nothing removed.  Lines 100-102 also return early when there
are no duplicates at all.  Python's `str.strip`/`str.lower` are modelled on
character lists (ASCII case folding). -/

/-- The characters removed by Python's default `str.strip()`. -/
def isPyWhitespace (c : Char) : Bool :=
  c = ' ' || c = '\t' || c = '\n' || c = '\r' || c = '\x0b' || c = '\x0c'

/-- Python `str.strip()`: drop leading and trailing whitespace. -/
def pyStrip (s : List Char) : List Char :=
  ((s.dropWhile isPyWhitespace).reverse.dropWhile isPyWhitespace).reverse

/-- Python `str.lower()` on ASCII letters. -/
def pyLowerChar (c : Char) : Char :=
  if 'A' ≤ c ∧ c ≤ 'Z' then Char.ofNat (c.toNat + 32) else c

/-- Python `str.lower()` over the whole response. -/
def pyLower (s : List Char) : List Char := s.map pyLowerChar

/-- The confirmation test of `imagefinder.py` line 131:
`response in ["yes", "y"]` after `.strip().lower()`. -/
def respIsYes (resp : List Char) : Bool :=
  pyLower (pyStrip resp) == "yes".toList || pyLower (pyStrip resp) == "y".toList

/-- `delete_duplicates` (`imagefinder.py` lines 90-150): early return when
there are no duplicates; in interactive mode, early return unless the
response confirms; otherwise run the deletion loop on the plan.  The result
is the final filesystem with `deleted_count` and `total_size_freed`. -/
def delete_duplicates (dups : List (String × List (String × Nat)))
    (interactive : Bool) (resp : List Char) (fs : List (String × Nat)) :
    List (String × Nat) × Nat × Nat :=
  if totalDuplicates dups = 0 then (fs, 0, 0)
  else if interactive && !respIsYes resp then (fs, 0, 0)
  else deleteLoop (filesToDelete dups) fs

/-- **C9.** In interactive mode, a response that is not `"yes"` or `"y"`
after stripping and lowercasing makes `delete_duplicates` return with the
filesystem untouched and nothing counted as deleted. -/
theorem delete_duplicates_cancelled (dups : List (String × List (String × Nat)))
    (resp : List Char) (fs : List (String × Nat))
    (h1 : pyLower (pyStrip resp) ≠ "yes".toList)
    (h2 : pyLower (pyStrip resp) ≠ "y".toList) :
    delete_duplicates dups true resp fs = (fs, 0, 0) := by
  have hy : respIsYes resp = false := by
    simp only [respIsYes, Bool.or_eq_false_iff, beq_eq_false_iff_ne, ne_eq]
    exact ⟨fun hc => h1 (by simpa using hc), fun hc => h2 (by simpa using hc)⟩
  simp [delete_duplicates, hy]

/-- Witness for C9: the response `" NO "` cancels the deletion of a planned
duplicate that does exist on disk. -/
theorem delete_duplicates_cancelled_witness :
    pyLower (pyStrip " NO ".toList) ≠ "yes".toList ∧
    pyLower (pyStrip " NO ".toList) ≠ "y".toList ∧
    delete_duplicates [("o", [("d", 1)])] true " NO ".toList [("d", 7)] =
      ([("d", 7)], 0, 0) :=
  ⟨by decide, by decide,
    delete_duplicates_cancelled [("o", [("d", 1)])] " NO ".toList [("d", 7)]
      (by decide) (by decide)⟩

/-! ## Command-line argument parsing

`main` (`imagefinder.py` lines 181-194) starts from
`similarity_threshold = 5` and `interactive = True` and folds over
`sys.argv[2:]`: `"--auto"` switches off interactivity; any other argument is
fed to `int(...)`, a `ValueError` printing a warning and leaving the
threshold unchanged.  `int` is modelled as Python's integer literal parsing
on ASCII: surrounding whitespace, an optional sign, then digits with
optional single underscores between them. -/

/-- The rest of a Python integer literal after its first digit: digits with
single underscores allowed between digits. -/
def pyDigitsLoop : List Char → Nat → Option Nat
  | [], acc => some acc
  | '_' :: c :: cs, acc =>
    if c.isDigit then pyDigitsLoop cs (acc * 10 + (c.toNat - '0'.toNat)) else none
  | c :: cs, acc =>
    if c.isDigit then pyDigitsLoop cs (acc * 10 + (c.toNat - '0'.toNat)) else none

/-- A nonempty Python digit sequence. -/
def pyParseDigits : List Char → Option Nat
  | [] => none
  | c :: cs =>
    if c.isDigit then pyDigitsLoop cs (c.toNat - '0'.toNat) else none

/-- Python's `int(str)` conversion as used on `imagefinder.py` line 190:
`none` models the `ValueError` caught on line 191. -/
def pyParseInt (s : List Char) : Option Int :=
  match pyStrip s with
  | '+' :: rest => (pyParseDigits rest).map (fun n => (n : Int))
  | '-' :: rest => (pyParseDigits rest).map (fun n => -(n : Int))
  | rest => (pyParseDigits rest).map (fun n => (n : Int))

/-- The configuration accumulated by `main` (`imagefinder.py` lines
182-194): the similarity threshold, the interactive flag, and the number of
invalid-threshold warnings printed. -/
structure Config where
  threshold : Int
  interactive : Bool
  warnings : Nat
deriving DecidableEq

/-- The argument loop of `imagefinder.py` lines 185-194. -/
def parseArgsLoop : List (List Char) → Config → Config
  | [], cfg => cfg
  | a :: rest, cfg =>
    if a = "--auto".toList then
      parseArgsLoop rest { cfg with interactive := false }
    else
      match pyParseInt a with
      | some n => parseArgsLoop rest { cfg with threshold := n }
      | none => parseArgsLoop rest { cfg with warnings := cfg.warnings + 1 }

/-- Parsing `sys.argv[2:]` from the defaults of `imagefinder.py` lines
182-183: threshold `5`, interactive mode, no warnings. -/
def parseArgs (args : List (List Char)) : Config :=
  parseArgsLoop args ⟨5, true, 0⟩

/-- An argument other than the `"--auto"` flag (the `else` branch of
`imagefinder.py` line 188). -/
def isNotAutoFlag (a : List Char) : Bool := a != "--auto".toList

theorem parseArgsLoop_no_int (args : List (List Char)) :
    ∀ cfg : Config, (∀ a ∈ args, pyParseInt a = none) →
      (parseArgsLoop args cfg).threshold = cfg.threshold ∧
      (parseArgsLoop args cfg).warnings =
        cfg.warnings + args.countP isNotAutoFlag := by
  induction args with
  | nil => intro cfg _; simp [parseArgsLoop]
  | cons a rest ih =>
    intro cfg hall
    have ha : pyParseInt a = none := hall a (by simp)
    have hrest : ∀ b ∈ rest, pyParseInt b = none :=
      fun b hb => hall b (List.mem_cons_of_mem _ hb)
    by_cases hauto : a = "--auto".toList
    · rw [parseArgsLoop, if_pos hauto]
      obtain ⟨h1, h2⟩ := ih { cfg with interactive := false } hrest
      refine ⟨h1, ?_⟩
      have hb : ¬ isNotAutoFlag a = true := by
        rw [isNotAutoFlag, hauto]
        simp
      rw [h2, List.countP_cons_of_neg isNotAutoFlag rest hb]
    · rw [parseArgsLoop, if_neg hauto, ha]
      obtain ⟨h1, h2⟩ := ih { cfg with warnings := cfg.warnings + 1 } hrest
      have hw : ({ cfg with warnings := cfg.warnings + 1 } : Config).warnings
          = cfg.warnings + 1 := rfl
      rw [hw] at h2
      have hb : isNotAutoFlag a = true := by
        rw [isNotAutoFlag]
        exact bne_iff_ne.mpr hauto
      refine ⟨h1, ?_⟩
      rw [h2, List.countP_cons_of_pos isNotAutoFlag rest hb]
      omega

/-- **C10.** When no argument after the folder parses as an integer (any
mix of `"--auto"` and invalid threshold strings), the similarity threshold
stays at its default of `5`, one warning is emitted per invalid argument,
and parsing completes with a configuration (the scan proceeds; nothing
aborts). -/
theorem invalid_threshold_args_keep_default (args : List (List Char))
    (hall : ∀ a ∈ args, pyParseInt a = none) :
    (parseArgs args).threshold = 5 ∧
    (parseArgs args).warnings = args.countP isNotAutoFlag := by
  obtain ⟨h1, h2⟩ := parseArgsLoop_no_int args ⟨5, true, 0⟩ hall
  exact ⟨h1, by simpa using h2⟩

/-- Witness for C10: two invalid threshold strings around `"--auto"` leave
the threshold at `5` and produce two warnings. -/
theorem invalid_threshold_args_keep_default_witness :
    (∀ a ∈ ["abc".toList, "--auto".toList, "5x".toList], pyParseInt a = none) ∧
    ((parseArgs ["abc".toList, "--auto".toList, "5x".toList]).threshold = 5 ∧
      (parseArgs ["abc".toList, "--auto".toList, "5x".toList]).warnings =
        ["abc".toList, "--auto".toList, "5x".toList].countP isNotAutoFlag) :=
  ⟨by decide,
    invalid_threshold_args_keep_default ["abc".toList, "--auto".toList, "5x".toList]
      (by decide)⟩

end ImageFinder
